import Mathlib

/-!
Verification development for the NikkeOLScraper repository (olscraper.py).

The Python source is shallowly embedded: JSON-like Python values become the
inductive `JVal`, Python exceptions become the error type `PyErr` threaded
through `Except`, and each source function becomes a Lean definition of the
same name (or a close variant when the original mixes I/O with logic).
All recursion is structural so the kernel can evaluate every definition on
concrete inputs.
-/

namespace OLScraper

/-- A Python/JSON value as produced by `json.loads`: `None`, booleans,
integers, strings, lists and string-keyed dicts.  (The API payloads
modelled here carry no float literals.) -/
inductive JVal where
  | null
  | bool (b : Bool)
  | int (n : Int)
  | str (s : String)
  | list (xs : List JVal)
  | obj (kvs : List (String × JVal))

/-- The Python exceptions the embedded code can raise. -/
inductive PyErr where
  | attributeError
  | typeError
  | indexError
  | keyError
  | overflowError
  deriving DecidableEq

/-- Python truthiness (`bool(v)`) for the values of `JVal`. -/
def pyTruthy : JVal → Bool
  | .null => false
  | .bool b => b
  | .int n => n != 0
  | .str s => !s.isEmpty
  | .list xs => !xs.isEmpty
  | .obj kvs => !kvs.isEmpty

/-- Lookup in a string-keyed dict.  `json.loads` keeps the last occurrence
of a duplicated key, hence the fold keeps the last match. -/
def objGet (kvs : List (String × JVal)) (k : String) : Option JVal :=
  kvs.foldl (fun acc kv => if kv.1 = k then some kv.2 else acc) none

/-- Python `v.get(k, d)`: dict lookup with default; any non-dict receiver
raises `AttributeError` (no other `JVal` has a `get` attribute). -/
def pyGet (v : JVal) (k : String) (d : JVal) : Except PyErr JVal :=
  match v with
  | .obj kvs => .ok ((objGet kvs k).getD d)
  | _ => .error .attributeError

/-- Python iteration (`for x in v`): lists yield their elements, strings
their one-character substrings, dicts their keys; other values raise
`TypeError`. -/
def pyIter (v : JVal) : Except PyErr (List JVal) :=
  match v with
  | .list xs => .ok xs
  | .str s => .ok (s.data.map fun c => .str (String.mk [c]))
  | .obj kvs => .ok (kvs.map fun kv => .str kv.1)
  | _ => .error .typeError

/-- Python `v[0]`: first element of a list (IndexError when empty), first
character of a string, `KeyError` for a string-keyed dict (no key `0`),
`TypeError` otherwise. -/
def pyIndex0 (v : JVal) : Except PyErr JVal :=
  match v with
  | .list (x :: _) => .ok x
  | .list [] => .error .indexError
  | .str s =>
    match s.data with
    | c :: _ => .ok (.str (String.mk [c]))
    | [] => .error .indexError
  | .obj _ => .error .keyError
  | _ => .error .typeError

/-- Python `==` for the comparisons the source performs, where at least one
side is a non-container value (containers never become dict keys here, the
hashability guard raises first): `True == 1`, scalars of distinct kinds
compare unequal, container-vs-scalar compares unequal. -/
def pyEq : JVal → JVal → Bool
  | .null, .null => true
  | .bool a, .bool b => a == b
  | .bool a, .int b => (if a then (1 : Int) else 0) == b
  | .int a, .bool b => a == (if b then (1 : Int) else 0)
  | .int a, .int b => a == b
  | .str a, .str b => a == b
  | _, _ => false

/-- Whether a value may be used as a dict key (`hash(v)` succeeds):
lists and dicts are unhashable. -/
def pyHashable : JVal → Bool
  | .list _ => false
  | .obj _ => false
  | _ => true

mutual

/-- Python `repr` on JSON-like values (string escaping inside quotes is not
modelled; no claim exercises it). -/
def pyRepr : JVal → String
  | .null => "None"
  | .bool b => if b then "True" else "False"
  | .int n => toString n
  | .str s => "\x27" ++ s ++ "\x27"
  | .list xs => "[" ++ pyReprList xs ++ "]"
  | .obj kvs => "\x7b" ++ pyReprObj kvs ++ "\x7d"

/-- Comma-separated reprs of a list's elements. -/
def pyReprList : List JVal → String
  | [] => ""
  | [x] => pyRepr x
  | x :: y :: rest => pyRepr x ++ ", " ++ pyReprList (y :: rest)

/-- Comma-separated `key: value` reprs of a dict's entries. -/
def pyReprObj : List (String × JVal) → String
  | [] => ""
  | [(k, v)] => "\x27" ++ k ++ "\x27: " ++ pyRepr v
  | (k, v) :: kv :: rest => "\x27" ++ k ++ "\x27: " ++ pyRepr v ++ ", " ++ pyReprObj (kv :: rest)

end

/-- Python `str(v)`: identity on strings, `repr`-like rendering otherwise
(`str(None) = "None"`, `str(5) = "5"`). -/
def pyStr (v : JVal) : String :=
  match v with
  | .str s => s
  | .null => "None"
  | .bool b => if b then "True" else "False"
  | .int n => toString n
  | .list xs => pyRepr (.list xs)
  | .obj kvs => pyRepr (.obj kvs)

/-- Digit-sequence part of Python's `int()` grammar: digits optionally
separated by single underscores, value in base 10 (`digitsGo` consumes the
tail after the first digit). -/
def digitsGo : Nat → List Char → Option Nat
  | acc, [] => some acc
  | _, ['_'] => none
  | acc, '_' :: c :: cs =>
    if c.isDigit then digitsGo (acc * 10 + (c.toNat - 48)) cs else none
  | acc, c :: cs =>
    if c.isDigit then digitsGo (acc * 10 + (c.toNat - 48)) cs else none

/-- Parse a nonempty digit sequence (with Python's underscore rule). -/
def parseIntDigits : List Char → Option Nat
  | [] => none
  | c :: cs => if c.isDigit then digitsGo (c.toNat - 48) cs else none

/-- Python `s.strip()` restricted to ASCII whitespace. -/
def pyStrip (s : String) : String :=
  ⟨((s.data.dropWhile Char.isWhitespace).reverse.dropWhile Char.isWhitespace).reverse⟩

/-- Python `int(s)` on a string: optional surrounding whitespace, optional
sign, then digits (underscore-separated groups allowed); `none` models the
`ValueError` path. -/
def pyIntStr (s : String) : Option Int :=
  match (pyStrip s).data with
  | '-' :: cs => (parseIntDigits cs).map fun n => -(n : Int)
  | '+' :: cs => (parseIntDigits cs).map fun n => (n : Int)
  | cs => (parseIntDigits cs).map fun n => (n : Int)

/-- Python `int(v)` on a `JVal`; `none` models the raising paths
(`int(None)`, `int([])`, unparsable strings, ...). -/
def pyInt : JVal → Option Int
  | .int n => some n
  | .bool b => some (if b then 1 else 0)
  | .str s => pyIntStr s
  | _ => none

/-- The effect table built by the extractor: dict from raw effect-id values
to `(function_type, parsed function_value)`. -/
def EffectMap := List (JVal × (JVal × Int))

/-- Python dict assignment `m[k] = v`: replace the value at an existing
equal key (keeping the original key object), else append. -/
def dictSet : EffectMap → JVal → JVal × Int → EffectMap
  | [], k, v => [(k, v)]
  | kv :: rest, k, v =>
    if pyEq kv.1 k then (kv.1, v) :: rest else kv :: dictSet rest k v

/-- Python dict lookup `m[k]` / `k in m` as an `Option`. -/
def dictGet : EffectMap → JVal → Option (JVal × Int)
  | [], _ => none
  | kv :: rest, k => if pyEq kv.1 k then some kv.2 else dictGet rest k

/-- Two-character rendering of a fraction-of-100 remainder (`r < 100`). -/
def twoFrac (r : Nat) : String :=
  String.mk [Char.ofNat (48 + r / 10), Char.ofNat (48 + r % 10)]

/-- Round-to-nearest, ties-to-even integer division (IEEE-754 rounding of
the exact quotient `a / b` to an integer; `b > 0` at every use). -/
def rneDiv (a b : Nat) : Nat :=
  if 2 * (a % b) < b then a / b
  else if b < 2 * (a % b) then a / b + 1
  else if (a / b) % 2 = 0 then a / b else a / b + 1

/-- Fuelled floor of log base 2 (structural recursion so the kernel can
evaluate it on literals). -/
def log2fuel : Nat → Nat → Nat
  | 0, _ => 0
  | fuel + 1, n => if 2 ≤ n then log2fuel fuel (n / 2) + 1 else 0

/-- The binade of `N / 100` as a shifted natural exponent: the `E` with
`100 * 2 ^ E ≤ 128 * N < 100 * 2 ^ (E + 1)` (so the double's binary
exponent is `E - 7` and its ulp is `2 ^ (E - 59)`); defined for
`1 ≤ N < 100 * 2 ^ 1024`, where the fuel of 1200 halvings suffices. -/
def binadeOf (N : Nat) : Nat :=
  if 100 * 2 ^ (log2fuel 1200 (128 * N) - 6) ≤ 128 * N then log2fuel 1200 (128 * N) - 6
  else log2fuel 1200 (128 * N) - 7

/-- The 53-bit significand of the correctly rounded binary64 double
`N / 100` in binade `E`: round-to-nearest-even of `N / 100` at granularity
`2 ^ (E - 59)`.  (When rounding carries up to `2 ^ 53` the value equals the
next binade's boundary, so no renormalisation is needed to read it off.) -/
def mantissaOf (N E : Nat) : Nat :=
  if E ≤ 59 then rneDiv (N * 2 ^ (59 - E)) 100 else rneDiv N (100 * 2 ^ (E - 59))

/-- The integer cents of the double `m * 2 ^ (E - 59)`: round-to-nearest-
even of 100 times the double's exact value, which is what a correctly
rounded two-decimal fixed rendering prints. -/
def centsOf (m E : Nat) : Nat :=
  if E ≤ 59 then rneDiv (100 * m) (2 ^ (59 - E)) else 100 * m * 2 ^ (E - 59)

/-- Python `N / 100` on a non-negative int, then `:.2f`, as integer cents.
CPython's int-over-int true division returns the correctly rounded
(round-half-even) double, and its fixed formatting is correctly rounded
with ties to even, so the rendered value is exactly these cents.  A
quotient that rounds to `2 ^ 1024` or beyond raises `OverflowError`
("integer division result too large for a float"); the guard bound
`100 * (2 ^ 256) ^ 4` is `100 * 2 ^ 1024`, written with small exponents so
evaluators reduce it. -/
def div100f (N : Nat) : Except PyErr Nat :=
  if N = 0 then .ok 0
  else if 100 * (2 ^ 256) ^ 4 ≤ N then .error .overflowError
  else if 1030 < binadeOf N ∨ (binadeOf N = 1030 ∧ mantissaOf N (binadeOf N) = 2 ^ 53) then
    .error .overflowError
  else .ok (centsOf (mantissaOf N (binadeOf N)) (binadeOf N))

/-- The source's `f"\x7bn / 100:.2f\x7d"` on an integer total `n`: the sign,
then the cents of the double `|n| / 100` rendered with a dot and exactly
two fractional digits. -/
def format2f (n : Int) : Except PyErr String := do
  let c ← div100f n.natAbs
  .ok ((if n < 0 then "-" else "") ++ toString (c / 100) ++ "." ++ twoFrac (c % 100))

/-- Inner loop of step 1 of `extract_stats_per_gear`: fold the
function-detail records of one effect entry into the table.  Each record
overwrites the entry's binding (`effect_map[eid] = (ftype, val)`), a
non-dict record raises `AttributeError` at `func.get`, an unhashable id
raises `TypeError` at the assignment, and an unparsable `function_value`
is caught and replaced by `0`. -/
def processFuncs (m : EffectMap) (eid : JVal) : List JVal → Except PyErr EffectMap
  | [] => .ok m
  | f :: rest =>
    match f with
    | .obj fkvs =>
      let ftype := (objGet fkvs "function_type").getD .null
      let val := (pyInt ((objGet fkvs "function_value").getD (.int 0))).getD 0
      if pyHashable eid then processFuncs (dictSet m eid (ftype, val)) eid rest
      else .error .typeError
    | _ => .error .attributeError

/-- One iteration of the outer loop of step 1: a non-dict effect entry
raises at `effect.get("id")`, otherwise its function-detail records are
iterated and folded into the table. -/
def processEffect (m : EffectMap) (effect : JVal) : Except PyErr EffectMap :=
  match effect with
  | .obj kvs =>
    let eid := (objGet kvs "id").getD .null
    match pyIter ((objGet kvs "function_details").getD (.list [])) with
    | .ok fds => processFuncs m eid fds
    | .error e => .error e
  | _ => .error .attributeError

/-- Step 1 of `extract_stats_per_gear`: build the id-to-descriptor table by
scanning every state-effect entry in order. -/
def processEffects : EffectMap → List JVal → Except PyErr EffectMap
  | m, [] => .ok m
  | m, e :: rest => do
    let m' ← processEffect m e
    processEffects m' rest

/-- The value `response.get("data", \x7b\x7d).get("state_effects", [])`
iterated by the extractor's step 1. -/
def stateEffectsOf (response : JVal) : Except PyErr (List JVal) := do
  let d ← pyGet response "data" (.obj [])
  let se ← pyGet d "state_effects" (.list [])
  pyIter se

/-- Step 2: `response.get("data", \x7b\x7d).get("character_details", [\x7b\x7d])[0]` —
the first character-detail record, with an empty-dict placeholder only when
the key is absent (an explicitly empty list still raises `IndexError`). -/
def characterOf (response : JVal) : Except PyErr JVal := do
  let d ← pyGet response "data" (.obj [])
  let cds ← pyGet d "character_details" (.list [.obj []])
  pyIndex0 cds

/-- The 12 fixed gear-slot field names (source list `gear_keys`). -/
def gear_keys : List String :=
  ["arm_equip_option1_id", "arm_equip_option2_id", "arm_equip_option3_id",
   "leg_equip_option1_id", "leg_equip_option2_id", "leg_equip_option3_id",
   "head_equip_option1_id", "head_equip_option2_id", "head_equip_option3_id",
   "torso_equip_option1_id", "torso_equip_option2_id", "torso_equip_option3_id"]

/-- The three running integer totals of the extractor (`results` before
step 4's formatting). -/
structure Totals where
  attack : Int
  elemental : Int
  ammo : Int

/-- Step 3 of `extract_stats_per_gear`: for each slot key in order, read
`str(character.get(key))`, look it up in the table and add the magnitude to
the matching kind's total. -/
def addSlotsAux (m : EffectMap) (character : JVal) : Totals → List String → Except PyErr Totals
  | t, [] => .ok t
  | t, key :: rest => do
    let v ← pyGet character key .null
    match dictGet m (.str (pyStr v)) with
    | some (ftype, val) =>
      if pyEq ftype (.str "StatAtk") then
        addSlotsAux m character { t with attack := t.attack + val } rest
      else if pyEq ftype (.str "IncElementDmg") then
        addSlotsAux m character { t with elemental := t.elemental + val } rest
      else if pyEq ftype (.str "StatAmmoLoad") then
        addSlotsAux m character { t with ammo := t.ammo + val } rest
      else
        addSlotsAux m character t rest
    | none => addSlotsAux m character t rest

/-- The contribution of a single slot key, as three totals, for a character
record `ckvs` and table `m` (used to state slot-independence). -/
def slotVal (m : EffectMap) (ckvs : List (String × JVal)) (key : String) : Totals :=
  match dictGet m (.str (pyStr ((objGet ckvs key).getD .null))) with
  | some (ftype, val) =>
    if pyEq ftype (.str "StatAtk") then ⟨val, 0, 0⟩
    else if pyEq ftype (.str "IncElementDmg") then ⟨0, val, 0⟩
    else if pyEq ftype (.str "StatAmmoLoad") then ⟨0, 0, val⟩
    else ⟨0, 0, 0⟩
  | none => ⟨0, 0, 0⟩

/-- The integer-zero dict `results` that the source initialises and returns
unchanged on the falsy-response early path. -/
def zeroIntObj : JVal :=
  .obj [("Attack", .int 0), ("ElementalDamage", .int 0), ("MaxAmmo", .int 0)]

/-- The string-valued stats dict produced by step 4. -/
def mkStats (a e m : String) : JVal :=
  .obj [("Attack", .str a), ("ElementalDamage", .str e), ("MaxAmmo", .str m)]

/-- Step 4 of `extract_stats_per_gear`: the returned dict, each total put
through the float division and two-decimal rendering of `format2f`. -/
def formatTotals (t : Totals) : Except PyErr JVal := do
  let a ← format2f t.attack
  let e ← format2f t.elemental
  let m ← format2f t.ammo
  .ok (mkStats a e m)

/-- The extractor `extract_stats_per_gear`: falsy responses return the
integer-zero dict; otherwise the effect table is built, the first character
record selected, the 12 slots accumulated, and the three totals formatted
to two decimals.  Raised Python exceptions surface as `.error`. -/
def extract_stats_per_gear (response : JVal) : Except PyErr JVal :=
  if pyTruthy response then do
    let ses ← stateEffectsOf response
    let m ← processEffects [] ses
    let character ← characterOf response
    let t ← addSlotsAux m character ⟨0, 0, 0⟩ gear_keys
    formatTotals t
  else .ok zeroIntObj

/-- An effect entry `\x7b"id": eid, "function_details": fds\x7d`. -/
def mkEffect (eid : JVal) (fds : List JVal) : JVal :=
  .obj [("id", eid), ("function_details", .list fds)]

/-- A function-detail record
`\x7b"function_type": t, "function_value": v\x7d`. -/
def mkFunc (t : String) (v : JVal) : JVal :=
  .obj [("function_type", .str t), ("function_value", v)]

/-- One output row of `main`: each stat cell is either a value taken from
the extractor's dict or Python `None` (the fetch-failure marker). -/
structure Row where
  player : String
  unit : String
  attack : Option JVal
  elemental : Option JVal
  ammo : Option JVal

/-- The fetch-failure row: all three stat cells are the `None` marker. -/
def nullRow (p u : String) : Row :=
  ⟨p, u, none, none, none⟩

/-- One player record as produced by `load_players_csv`. -/
structure PlayerRec where
  player : String
  intl_open_id : String

/-- The driver's condition `resp and resp.get("code") == 0`:
`call_character_details` returns `None` on a transport failure (modelled as
`Option.none`); a falsy parsed body short-circuits to `False`; a truthy
non-dict body raises at `.get`. -/
def shouldExtract (resp : Option JVal) : Except PyErr Bool :=
  match resp with
  | none => .ok false
  | some v =>
    if pyTruthy v then
      match v with
      | .obj kvs => .ok (pyEq ((objGet kvs "code").getD .null) (.int 0))
      | _ => .error .attributeError
    else .ok false

/-- Python `d[k]` on the extractor's stats dict. -/
def objSubscript (v : JVal) (k : String) : Except PyErr JVal :=
  match v with
  | .obj kvs =>
    match objGet kvs k with
    | some x => .ok x
    | none => .error .keyError
  | _ => .error .typeError

/-- One iteration of `main`'s inner loop body for an already-fetched
response: either the extractor runs and its three cells fill the row
(second component `true`), or the all-`None` row is appended (second
component `false`, extractor not invoked). -/
def mainStep (resp : Option JVal) (p u : String) : Except PyErr (Row × Bool) := do
  let b ← shouldExtract resp
  if b then do
    let stats ← extract_stats_per_gear (resp.getD .null)
    let a ← objSubscript stats "Attack"
    let e ← objSubscript stats "ElementalDamage"
    let mm ← objSubscript stats "MaxAmmo"
    .ok (⟨p, u, some a, some e, some mm⟩, true)
  else .ok (nullRow p u, false)

/-- The inner loop of `main` over the sorted unit list for one player,
with the HTTP boundary abstracted as `fetch` (the source's
`call_character_details`, which returns `None` on `RequestException`). -/
def runUnits (fetch : String → Int → Option JVal) (p : PlayerRec) :
    List (Int × String) → Except PyErr (List Row)
  | [] => .ok []
  | (code, uname) :: rest => do
    let rb ← mainStep (fetch p.intl_open_id code) p.player uname
    let rows ← runUnits fetch p rest
    .ok (rb.1 :: rows)

/-- The outer loop of `main`: the players-by-units cross product in order. -/
def runAll (fetch : String → Int → Option JVal) :
    List PlayerRec → List (Int × String) → Except PyErr (List Row)
  | [], _ => .ok []
  | p :: ps, units => do
    let r1 ← runUnits fetch p units
    let r2 ← runAll fetch ps units
    .ok (r1 ++ r2)

/-- A row as `csv.DictReader` yields it: each header maps to its cell, or
to `None` (`Option.none` here) when the physical row is shorter than the
header; a header absent from the list models a column missing entirely. -/
def CsvRow := List (String × Option String)

/-- Dict lookup on a reader row; `none` models `KeyError`. -/
def rowGet (row : CsvRow) (k : String) : Option (Option String) :=
  row.foldl (fun acc kv => if kv.1 = k then some kv.2 else acc) none

/-- The body of `load_units_csv`'s try block for one row:
`int(row["units/Name code"])` then `row["units/Name"].strip()`; `none`
models any exception (KeyError, `int(None)`, unparsable text), which the
bare `except` turns into a silent skip. -/
def unitRowParse (row : CsvRow) : Option (Int × String) := do
  let ccell ← rowGet row "units/Name code"
  let cstr ← ccell
  let code ← pyIntStr cstr
  let ncell ← rowGet row "units/Name"
  let nstr ← ncell
  some (code, pyStrip nstr)

/-- Python dict assignment for the integer-keyed unit mapping. -/
def intMapSet : List (Int × String) → Int → String → List (Int × String)
  | [], k, v => [(k, v)]
  | kv :: rest, k, v =>
    if kv.1 = k then (k, v) :: rest else kv :: intMapSet rest k v

/-- The row loop of `load_units_csv`: parseable rows update the mapping,
any failing row is skipped and loading continues. -/
def loadUnitsAux : List (Int × String) → List CsvRow → List (Int × String)
  | m, [] => m
  | m, row :: rest =>
    match unitRowParse row with
    | some (code, name) => loadUnitsAux (intMapSet m code name) rest
    | none => loadUnitsAux m rest

/-- The source's `load_units_csv`, on the rows the CSV reader yields. -/
def load_units_csv (rows : List CsvRow) : List (Int × String) :=
  loadUnitsAux [] rows

/-- Python `s.split("-")`: split on every separator, no collapsing;
`""` yields `[""]`. -/
def splitCharAux (sep : Char) : List Char → List Char → List String
  | [], acc => [String.mk acc.reverse]
  | c :: cs, acc =>
    if c = sep then String.mk acc.reverse :: splitCharAux sep cs []
    else splitCharAux sep cs (c :: acc)

/-- Python `s.split(sep)` for a one-character separator. -/
def pySplit (s : String) (sep : Char) : List String :=
  splitCharAux sep s.data []

/-- One row of `load_players_csv`, which has no try/except:
`row["UID"].strip()` raises `KeyError` on a missing column and
`AttributeError` on a `None` cell, then `uid.split("-")[-1]`, then
`row["Player"].strip()` with the same failure modes. -/
def playerRowParse (row : CsvRow) : Except PyErr PlayerRec := do
  let ucell ←
    match rowGet row "UID" with
    | some x => Except.ok x
    | none => Except.error PyErr.keyError
  let uid ←
    match ucell with
    | some s => Except.ok (pyStrip s)
    | none => Except.error PyErr.attributeError
  let iid := (pySplit uid '-').getLastD ""
  let pcell ←
    match rowGet row "Player" with
    | some x => Except.ok x
    | none => Except.error PyErr.keyError
  let pname ←
    match pcell with
    | some s => Except.ok (pyStrip s)
    | none => Except.error PyErr.attributeError
  .ok ⟨pname, iid⟩

/-- The source's `load_players_csv` on the rows the CSV reader yields: an
exception in any row propagates and aborts the load. -/
def load_players_csv : List CsvRow → Except PyErr (List PlayerRec)
  | [] => .ok []
  | row :: rest => do
    let p ← playerRowParse row
    let ps ← load_players_csv rest
    .ok (p :: ps)

/-- Fixture (claims C1 and C7): a response whose `data` holds an explicitly
empty `character_details` list. -/
def respEmptyCD : JVal :=
  .obj [("data", .obj [("state_effects", .list []), ("character_details", .list [])])]

/-- Fixture (claim C1): a response whose `data` field is a string. -/
def respBadData : JVal := .obj [("data", .str "zz")]

/-- Fixture (claim C4): a magnitude-300 `StatAtk` effect referenced by two
arm slots of the same character record. -/
def respTwoSlots : JVal :=
  .obj [("data", .obj
    [("state_effects", .list [mkEffect (.str "9") [mkFunc "StatAtk" (.str "300")]]),
     ("character_details", .list
       [.obj [("arm_equip_option1_id", .str "9"), ("arm_equip_option2_id", .str "9")]])])]

/-- Fixture (claim C5): a `StatAtk` effect with a negative magnitude,
referenced by one slot. -/
def respNegative : JVal :=
  .obj [("data", .obj
    [("state_effects", .list [mkEffect (.str "1") [mkFunc "StatAtk" (.str "-500")]]),
     ("character_details", .list [.obj [("arm_equip_option1_id", .str "1")]])])]

/-- The effect table and character record of `respNegative`. -/
def negMap : EffectMap := [(.str "1", (.str "StatAtk", -500))]

/-- The character record of `respNegative`. -/
def negChar : JVal := .obj [("arm_equip_option1_id", .str "1")]

/-- Fixture (claim C5): an effect whose id is the string `"None"` together
with a character record carrying no slot fields at all; every absent slot
reads as `str(None) = "None"` and matches. -/
def respNoneId : JVal :=
  .obj [("data", .obj
    [("state_effects", .list [mkEffect (.str "None") [mkFunc "StatAtk" (.str "300")]]),
     ("character_details", .list [.obj []])])]

/-- Fixture (claims C7 and C2): a truthy response with an empty
state-effects list and no `character_details` key. -/
def respEmptyOK : JVal := .obj [("data", .obj [("state_effects", .list [])])]


theorem bind_ok {α β : Type} (a : α) (f : α → Except PyErr β) :
    (Except.ok a >>= f) = f a := rfl

theorem bind_error {α β : Type} (e : PyErr) (f : α → Except PyErr β) :
    ((Except.error e : Except PyErr α) >>= f) = .error e := rfl

theorem pyEq_refl_of_pyHashable (k : JVal) (h : pyHashable k = true) : pyEq k k = true := by
  cases k <;> simp_all [pyEq, pyHashable]

theorem dictGet_dictSet_self (m : EffectMap) (k : JVal) (v : JVal × Int)
    (h : pyEq k k = true) : dictGet (dictSet m k v) k = some v := by
  induction m with
  | nil => simp [dictSet, dictGet, h]
  | cons kv rest ih =>
    cases hk : pyEq kv.1 k with
    | true => simp [dictSet, hk, dictGet]
    | false => simp [dictSet, hk, dictGet, ih]

theorem processEffects_append (m : EffectMap) (es es' : List JVal) :
    processEffects m (es ++ es') =
      processEffects m es >>= fun m' => processEffects m' es' := by
  induction es generalizing m with
  | nil => rfl
  | cons e rest ih =>
    show (processEffect m e >>= fun m2 => processEffects m2 (rest ++ es')) =
      (processEffect m e >>= fun m2 => processEffects m2 rest) >>= fun m2 =>
        processEffects m2 es'
    cases processEffect m e with
    | ok m2 => exact ih m2
    | error er => rfl

theorem processEffect_mkEffect2 (m : EffectMap) (eid : JVal) (t1 t2 : String) (v1 v2 : JVal)
    (h : pyHashable eid = true) :
    processEffect m (mkEffect eid [mkFunc t1 v1, mkFunc t2 v2]) =
      .ok (dictSet (dictSet m eid (.str t1, (pyInt v1).getD 0)) eid
        (.str t2, (pyInt v2).getD 0)) := by
  simp [processEffect, mkEffect, mkFunc, objGet, pyIter, processFuncs, h, List.foldl]


theorem addSlotsAux_obj_cons (m : EffectMap) (ckvs : List (String × JVal)) (t : Totals)
    (key : String) (rest : List String) :
    addSlotsAux m (.obj ckvs) t (key :: rest) =
      addSlotsAux m (.obj ckvs)
        ⟨t.attack + (slotVal m ckvs key).attack,
         t.elemental + (slotVal m ckvs key).elemental,
         t.ammo + (slotVal m ckvs key).ammo⟩ rest := by
  show (match dictGet m (.str (pyStr ((objGet ckvs key).getD .null))) with
    | some (ftype, val) =>
      if pyEq ftype (.str "StatAtk") then
        addSlotsAux m (.obj ckvs) { t with attack := t.attack + val } rest
      else if pyEq ftype (.str "IncElementDmg") then
        addSlotsAux m (.obj ckvs) { t with elemental := t.elemental + val } rest
      else if pyEq ftype (.str "StatAmmoLoad") then
        addSlotsAux m (.obj ckvs) { t with ammo := t.ammo + val } rest
      else
        addSlotsAux m (.obj ckvs) t rest
    | none => addSlotsAux m (.obj ckvs) t rest) = _
  unfold slotVal
  cases hd : dictGet m (.str (pyStr ((objGet ckvs key).getD .null))) with
  | none => simp
  | some fv =>
    obtain ⟨ftype, val⟩ := fv
    cases h1 : pyEq ftype (.str "StatAtk") with
    | true => simp [h1]
    | false =>
      cases h2 : pyEq ftype (.str "IncElementDmg") with
      | true => simp [h1, h2]
      | false =>
        cases h3 : pyEq ftype (.str "StatAmmoLoad") with
        | true => simp [h1, h2, h3]
        | false => simp [h1, h2, h3]

theorem addSlotsAux_obj_sum (m : EffectMap) (ckvs : List (String × JVal)) :
    ∀ (keys : List String) (t : Totals),
      addSlotsAux m (.obj ckvs) t keys =
        .ok ⟨t.attack + (keys.map fun k => (slotVal m ckvs k).attack).sum,
             t.elemental + (keys.map fun k => (slotVal m ckvs k).elemental).sum,
             t.ammo + (keys.map fun k => (slotVal m ckvs k).ammo).sum⟩ := by
  intro keys
  induction keys with
  | nil => intro t; simp [addSlotsAux]
  | cons key rest ih =>
    intro t
    rw [addSlotsAux_obj_cons, ih]
    simp only [List.map_cons, List.sum_cons, Except.ok.injEq, Totals.mk.injEq]
    refine ⟨by ring, by ring, by ring⟩

theorem addSlotsAux_nil_map (character : JVal) :
    ∀ (keys : List String) (t t' : Totals),
      addSlotsAux [] character t keys = .ok t' → t' = t := by
  intro keys
  induction keys with
  | nil =>
    intro t t' h
    simp only [addSlotsAux, Except.ok.injEq] at h
    exact h.symm
  | cons key rest ih =>
    intro t t' h
    simp only [addSlotsAux] at h
    cases hg : pyGet character key .null with
    | error e => rw [hg] at h; exact absurd h (by simp [bind_error])
    | ok v =>
      rw [hg] at h
      simp only [bind_ok, dictGet] at h
      exact ih t t' h


/-- Claim C1 (code_bug evidence): the extractor raises on malformed
sub-structures — `IndexError` for an explicitly empty `character_details`
list, `AttributeError` for a non-dict `data` field. -/
theorem extract_raises_on_malformed_substructures :
    extract_stats_per_gear respEmptyCD = .error .indexError ∧
    extract_stats_per_gear respBadData = .error .attributeError :=
  ⟨rfl, rfl⟩

/-- Claim C2 (counterexample): on the null response the extractor returns
the integer-zero dict, which is not the two-decimal string mapping. -/
theorem extract_falsy_not_string_shaped :
    extract_stats_per_gear .null = .ok zeroIntObj ∧
    zeroIntObj ≠ mkStats "0.00" "0.00" "0.00" :=
  ⟨rfl, by simp [zeroIntObj, mkStats]⟩

/-- Claim C2 (amended): every falsy response (null, empty dict, ...) makes
the extractor return the integer-zero mapping unchanged. -/
theorem extract_falsy_returns_int_zero_map :
    ∀ v : JVal, pyTruthy v = false → extract_stats_per_gear v = .ok zeroIntObj := by
  intro v h
  unfold extract_stats_per_gear
  simp [h]

/-- Witness for `extract_falsy_returns_int_zero_map` at the null response. -/
theorem extract_falsy_returns_int_zero_map_witness :
    pyTruthy .null = false ∧ extract_stats_per_gear .null = .ok zeroIntObj :=
  ⟨rfl, extract_falsy_returns_int_zero_map .null rfl⟩

/-- Claim C3: appending an effect entry with a duplicated id and two
function-detail records makes the table lookup return the descriptor of the
last entry's last record, whatever the earlier entries put there. -/
theorem effect_map_last_write_wins
    (es : List JVal) (m : EffectMap) (eid : JVal) (t1 : String) (v1 : JVal)
    (t2 : String) (v2 : JVal)
    (hh : pyHashable eid = true) (hok : processEffects [] es = .ok m) :
    ∃ m', processEffects [] (es ++ [mkEffect eid [mkFunc t1 v1, mkFunc t2 v2]]) = .ok m' ∧
      dictGet m' eid = some (.str t2, (pyInt v2).getD 0) := by
  refine ⟨dictSet (dictSet m eid (.str t1, (pyInt v1).getD 0)) eid
    (.str t2, (pyInt v2).getD 0), ?_, ?_⟩
  · rw [processEffects_append, hok, bind_ok]
    show (processEffect m (mkEffect eid [mkFunc t1 v1, mkFunc t2 v2]) >>= fun m2 =>
      processEffects m2 []) = _
    rw [processEffect_mkEffect2 m eid t1 t2 v1 v2 hh]
    rfl
  · exact dictGet_dictSet_self (dictSet m eid (.str t1, (pyInt v1).getD 0)) eid _
      (pyEq_refl_of_pyHashable eid hh)

/-- Witness for `effect_map_last_write_wins`: a duplicated id `"7"` and a
two-record entry; the lookup yields the second record's descriptor. -/
theorem effect_map_last_write_wins_witness :
    ∃ m', processEffects []
        ([mkEffect (.str "7") [mkFunc "StatAtk" (.str "100")]] ++
          [mkEffect (.str "7") [mkFunc "StatAtk" (.int 5), mkFunc "StatAmmoLoad" (.str "300")]]) =
        .ok m' ∧
      dictGet m' (.str "7") = some (.str "StatAmmoLoad", 300) :=
  effect_map_last_write_wins [mkEffect (.str "7") [mkFunc "StatAtk" (.str "100")]]
    [(.str "7", (.str "StatAtk", 100))] (.str "7") "StatAtk" (.int 5) "StatAmmoLoad"
    (.str "300") rfl rfl


/-- Claim C4: the 12 slots accumulate independently — the totals are the
per-slot contributions summed with no deduplication — and on the concrete
fixture a magnitude-300 effect referenced by two slots yields "6.00". -/
theorem slots_accumulate_independently :
    (∀ (m : EffectMap) (ckvs : List (String × JVal)) (keys : List String) (t : Totals),
      addSlotsAux m (.obj ckvs) t keys =
        .ok ⟨t.attack + (keys.map fun k => (slotVal m ckvs k).attack).sum,
             t.elemental + (keys.map fun k => (slotVal m ckvs k).elemental).sum,
             t.ammo + (keys.map fun k => (slotVal m ckvs k).ammo).sum⟩) ∧
    extract_stats_per_gear respTwoSlots = .ok (mkStats "6.00" "0.00" "0.00") :=
  ⟨fun m ckvs keys t => addSlotsAux_obj_sum m ckvs keys t, rfl⟩

/-- Claim C5 (counterexample): totals are not non-negative — a parsed
magnitude of -500 drives the Attack total to -500 ("-5.00") — and a slot
with an absent EffectID does not always contribute zero: with an effect
whose id is the string "None", all 12 absent slots match, giving "36.00". -/
theorem stat_totals_invariant_fails :
    addSlotsAux negMap negChar ⟨0, 0, 0⟩ gear_keys = .ok ⟨-500, 0, 0⟩ ∧
    ¬ (0 : Int) ≤ -500 ∧
    extract_stats_per_gear respNegative = .ok (mkStats "-5.00" "0.00" "0.00") ∧
    extract_stats_per_gear respNoneId = .ok (mkStats "36.00" "0.00" "0.00") :=
  ⟨rfl, by norm_num, rfl, rfl⟩

/-- Claim C5 (amended): the totals are integer accumulations (of either
sign) of the 12 per-slot lookups, and a slot whose converted EffectID text
has no match in the table contributes exactly zero. -/
theorem stat_totals_slot_sum_decomposition :
    (∀ (m : EffectMap) (ckvs : List (String × JVal)),
      addSlotsAux m (.obj ckvs) ⟨0, 0, 0⟩ gear_keys =
        .ok ⟨(gear_keys.map fun k => (slotVal m ckvs k).attack).sum,
             (gear_keys.map fun k => (slotVal m ckvs k).elemental).sum,
             (gear_keys.map fun k => (slotVal m ckvs k).ammo).sum⟩) ∧
    (∀ (m : EffectMap) (ckvs : List (String × JVal)) (key : String),
      dictGet m (.str (pyStr ((objGet ckvs key).getD .null))) = none →
      slotVal m ckvs key = ⟨0, 0, 0⟩) := by
  constructor
  · intro m ckvs
    have h := addSlotsAux_obj_sum m ckvs gear_keys ⟨0, 0, 0⟩
    simpa using h
  · intro m ckvs key h
    unfold slotVal
    rw [h]

/-- Witness for `stat_totals_slot_sum_decomposition` on the empty table and
an empty character record. -/
theorem stat_totals_slot_sum_decomposition_witness :
    addSlotsAux [] (.obj []) ⟨0, 0, 0⟩ gear_keys =
      .ok ⟨(gear_keys.map fun k => (slotVal [] [] k).attack).sum,
           (gear_keys.map fun k => (slotVal [] [] k).elemental).sum,
           (gear_keys.map fun k => (slotVal [] [] k).ammo).sum⟩ ∧
    slotVal [] [] "arm_equip_option1_id" = ⟨0, 0, 0⟩ :=
  ⟨stat_totals_slot_sum_decomposition.1 [] [],
   stat_totals_slot_sum_decomposition.2 [] [] "arm_equip_option1_id" rfl⟩

/-- Claim C6: a failed fetch produces the all-None row, the inner loop
continues over the remaining units, and a None cell is distinguishable from
a genuine "0.00" cell. -/
theorem fetch_failure_null_row_run_continues
    (fetch : String → Int → Option JVal) (p : PlayerRec) (c : Int) (un : String)
    (rest : List (Int × String)) (h : fetch p.intl_open_id c = none) :
    mainStep (fetch p.intl_open_id c) p.player un = .ok (nullRow p.player un, false) ∧
    runUnits fetch p ((c, un) :: rest) =
      (runUnits fetch p rest).map (fun rows => nullRow p.player un :: rows) ∧
    (nullRow p.player un).attack ≠ some (.str "0.00") ∧
    (nullRow p.player un).elemental ≠ some (.str "0.00") ∧
    (nullRow p.player un).ammo ≠ some (.str "0.00") := by
  refine ⟨by rw [h]; rfl, ?_, by simp [nullRow], by simp [nullRow], by simp [nullRow]⟩
  show (mainStep (fetch p.intl_open_id c) p.player un >>= fun rb =>
    runUnits fetch p rest >>= fun rows => .ok (rb.1 :: rows)) = _
  rw [h]
  cases runUnits fetch p rest with
  | ok rows => rfl
  | error e => rfl

/-- Witness for `fetch_failure_null_row_run_continues` with an
always-failing fetch and a single (player, unit) pair. -/
theorem fetch_failure_null_row_run_continues_witness :
    mainStep none "P" "Alpha" = .ok (nullRow "P" "Alpha", false) ∧
    runUnits (fun _ _ => none) ⟨"P", "X1"⟩ [(7, "Alpha")] =
      (runUnits (fun _ _ => none) ⟨"P", "X1"⟩ []).map
        (fun rows => nullRow "P" "Alpha" :: rows) ∧
    (nullRow "P" "Alpha").attack ≠ some (.str "0.00") ∧
    (nullRow "P" "Alpha").elemental ≠ some (.str "0.00") ∧
    (nullRow "P" "Alpha").ammo ≠ some (.str "0.00") :=
  fetch_failure_null_row_run_continues (fun _ _ => none) ⟨"P", "X1"⟩ 7 "Alpha" [] rfl


/-- Claim C7 (counterexample): a response with an empty state-effects list
does not always yield the three "0.00" strings — an explicitly empty
character_details list raises, and a falsy response returns integer zeros. -/
theorem empty_effects_zero_strings_fails :
    extract_stats_per_gear respEmptyCD = .error .indexError ∧
    stateEffectsOf respEmptyCD = .ok [] ∧
    extract_stats_per_gear (.obj []) = .ok zeroIntObj ∧
    zeroIntObj ≠ mkStats "0.00" "0.00" "0.00" :=
  ⟨rfl, rfl, rfl, by simp [zeroIntObj, mkStats]⟩

/-- Claim C7 (amended): for every truthy response whose state-effects list
is empty, if the extractor returns normally then all three totals are
"0.00". -/
theorem empty_effects_nonraising_truthy_all_zero :
    ∀ (resp r : JVal), pyTruthy resp = true → stateEffectsOf resp = .ok [] →
      extract_stats_per_gear resp = .ok r → r = mkStats "0.00" "0.00" "0.00" := by
  intro resp r ht hse hex
  unfold extract_stats_per_gear at hex
  rw [ht] at hex
  simp only [if_true] at hex
  rw [hse] at hex
  simp only [bind_ok, processEffects] at hex
  cases hc : characterOf resp with
  | error e => rw [hc] at hex; exact absurd hex (by simp [bind_error])
  | ok ch =>
    rw [hc] at hex
    simp only [bind_ok] at hex
    cases ha : addSlotsAux [] ch ⟨0, 0, 0⟩ gear_keys with
    | error e => rw [ha] at hex; exact absurd hex (by simp [bind_error])
    | ok t =>
      rw [ha] at hex
      simp only [bind_ok] at hex
      have ht0 : t = ⟨0, 0, 0⟩ := addSlotsAux_nil_map ch gear_keys ⟨0, 0, 0⟩ t ha
      rw [ht0] at hex
      have hv : formatTotals ⟨0, 0, 0⟩ = .ok (mkStats "0.00" "0.00" "0.00") := rfl
      rw [hv] at hex
      simp only [Except.ok.injEq] at hex
      exact hex.symm

/-- Witness for `empty_effects_nonraising_truthy_all_zero` at a truthy
response with an empty state-effects list and no character_details key. -/
theorem empty_effects_nonraising_truthy_all_zero_witness :
    pyTruthy respEmptyOK = true ∧ stateEffectsOf respEmptyOK = .ok [] ∧
    extract_stats_per_gear respEmptyOK = .ok (mkStats "0.00" "0.00" "0.00") ∧
    mkStats "0.00" "0.00" "0.00" = mkStats "0.00" "0.00" "0.00" :=
  ⟨rfl, rfl, rfl,
   empty_effects_nonraising_truthy_all_zero respEmptyOK (mkStats "0.00" "0.00" "0.00")
     rfl rfl rfl⟩

theorem rneDiv_err (a b : Nat) (hb : 1 ≤ b) :
    2 * a ≤ 2 * (b * rneDiv a b) + b ∧ 2 * (b * rneDiv a b) ≤ 2 * a + b := by
  unfold rneDiv
  have h := Nat.div_add_mod a b
  have h2 : a % b < b := Nat.mod_lt a hb
  have h4 : b * (a / b + 1) = b * (a / b) + b := by ring
  split_ifs with h5 h6 h7 <;> omega

theorem log2fuel_spec :
    ∀ (fuel n : Nat), 1 ≤ n → n < 2 ^ fuel →
      2 ^ log2fuel fuel n ≤ n ∧ n < 2 ^ (log2fuel fuel n + 1) := by
  intro fuel
  induction fuel with
  | zero => intro n h1 h2; simp at h2; omega
  | succ f ih =>
    intro n h1 h2
    simp only [log2fuel]
    by_cases hn : 2 ≤ n
    · rw [if_pos hn]
      have h2' : n < 2 ^ f * 2 := by rw [← pow_succ]; exact h2
      have hdm := Nat.div_add_mod n 2
      have hm2 : n % 2 < 2 := Nat.mod_lt n (by norm_num)
      have hdiv : n / 2 < 2 ^ f := by omega
      have h1' : 1 ≤ n / 2 := by omega
      obtain ⟨hl, hr⟩ := ih (n / 2) h1' hdiv
      rw [pow_succ] at hr
      simp only [pow_succ]
      omega
    · rw [if_neg hn]
      simp only [pow_zero, pow_one]
      omega

theorem binadeOf_spec (N : Nat) (h1 : 1 ≤ N) (h2 : 128 * N < 2 ^ 1200) :
    100 * 2 ^ binadeOf N ≤ 128 * N ∧ 128 * N < 100 * 2 ^ (binadeOf N + 1) := by
  have h128 : 1 ≤ 128 * N := by omega
  obtain ⟨hl, hr⟩ := log2fuel_spec 1200 (128 * N) h128 h2
  have h27 : (2 : Nat) ^ 7 = 128 := by norm_num
  have hL7 : 7 ≤ log2fuel 1200 (128 * N) := by
    by_contra hc
    push_neg at hc
    have hp : (2 : Nat) ^ (log2fuel 1200 (128 * N) + 1) ≤ 2 ^ 7 :=
      Nat.pow_le_pow_right (by norm_num) (by omega)
    omega
  unfold binadeOf
  split_ifs with ht
  · refine ⟨ht, ?_⟩
    have e1 : log2fuel 1200 (128 * N) - 6 + 1 = log2fuel 1200 (128 * N) - 5 := by omega
    have e2 : (2 : Nat) ^ (log2fuel 1200 (128 * N) + 1) =
        2 ^ 6 * 2 ^ (log2fuel 1200 (128 * N) - 5) := by
      rw [← pow_add]
      congr 1
      omega
    rw [e1]
    calc 128 * N < 2 ^ (log2fuel 1200 (128 * N) + 1) := hr
      _ = 2 ^ 6 * 2 ^ (log2fuel 1200 (128 * N) - 5) := e2
      _ ≤ 100 * 2 ^ (log2fuel 1200 (128 * N) - 5) :=
          Nat.mul_le_mul_right _ (by norm_num)
  · have e3 : (2 : Nat) ^ log2fuel 1200 (128 * N) =
        2 ^ 7 * 2 ^ (log2fuel 1200 (128 * N) - 7) := by
      rw [← pow_add]
      congr 1
      omega
    have e4 : log2fuel 1200 (128 * N) - 7 + 1 = log2fuel 1200 (128 * N) - 6 := by omega
    constructor
    · calc 100 * 2 ^ (log2fuel 1200 (128 * N) - 7)
          ≤ 128 * 2 ^ (log2fuel 1200 (128 * N) - 7) :=
            Nat.mul_le_mul_right _ (by norm_num)
        _ = 2 ^ log2fuel 1200 (128 * N) := by rw [e3, h27]
        _ ≤ 128 * N := hl
    · rw [e4]
      omega

theorem div100f_exact (N : Nat) (h : N ≤ 2 ^ 52) : div100f N = .ok N := by
  by_cases h0 : N = 0
  · subst h0; rfl
  · have h1 : 1 ≤ N := by omega
    have hpow : ((2 : Nat) ^ 256) ^ 4 = 2 ^ 1024 := by rw [← pow_mul]
    have h52 : (2 : Nat) ^ 52 < 2 ^ 1024 :=
      Nat.pow_lt_pow_right (by norm_num) (by norm_num)
    have hmono : (2 : Nat) ^ 1024 ≤ 100 * ((2 : Nat) ^ 256) ^ 4 := by
      rw [hpow]
      exact Nat.le_mul_of_pos_left _ (by norm_num)
    have hpre : ¬ 100 * ((2 : Nat) ^ 256) ^ 4 ≤ N := by omega
    have h59 : (128 : Nat) * 2 ^ 52 = 2 ^ 59 := by norm_num
    have h1200 : (2 : Nat) ^ 59 < 2 ^ 1200 :=
      Nat.pow_lt_pow_right (by norm_num) (by norm_num)
    have hfuel : 128 * N < 2 ^ 1200 := by
      have hm : (128 : Nat) * N ≤ 128 * 2 ^ 52 := Nat.mul_le_mul_left _ h
      omega
    obtain ⟨hbl, hbr⟩ := binadeOf_spec N h1 hfuel
    have hE52 : binadeOf N ≤ 52 := by
      by_contra hc
      push_neg at hc
      have p1 : (100 : Nat) * 2 ^ 53 ≤ 100 * 2 ^ binadeOf N :=
        Nat.mul_le_mul_left _ (Nat.pow_le_pow_right (by norm_num) hc)
      have p2 : (128 : Nat) * N ≤ 128 * 2 ^ 52 := Nat.mul_le_mul_left _ h
      have p3 : (128 : Nat) * 2 ^ 52 < 100 * 2 ^ 53 := by norm_num
      omega
    have hover : ¬ (1030 < binadeOf N ∨
        (binadeOf N = 1030 ∧ mantissaOf N (binadeOf N) = 2 ^ 53)) := by
      rintro (hc | ⟨hc, _⟩) <;> omega
    unfold div100f
    rw [if_neg h0, if_neg hpre, if_neg hover]
    have hk : binadeOf N ≤ 59 := by omega
    unfold mantissaOf centsOf
    rw [if_pos hk, if_pos hk]
    have hk7 : 7 ≤ 59 - binadeOf N := by omega
    have hpk : (128 : Nat) ≤ 2 ^ (59 - binadeOf N) := by
      calc (128 : Nat) = 2 ^ 7 := by norm_num
        _ ≤ 2 ^ (59 - binadeOf N) := Nat.pow_le_pow_right (by norm_num) hk7
    obtain ⟨m1, m2⟩ := rneDiv_err (N * 2 ^ (59 - binadeOf N)) 100 (by norm_num)
    obtain ⟨c1, c2⟩ := rneDiv_err
      (100 * rneDiv (N * 2 ^ (59 - binadeOf N)) 100) (2 ^ (59 - binadeOf N)) (by omega)
    have hx : 2 ^ (59 - binadeOf N) * (N + 1) =
        N * 2 ^ (59 - binadeOf N) + 2 ^ (59 - binadeOf N) := by ring
    have hy : 2 ^ (59 - binadeOf N) *
        (rneDiv (100 * rneDiv (N * 2 ^ (59 - binadeOf N)) 100) (2 ^ (59 - binadeOf N)) + 1) =
        2 ^ (59 - binadeOf N) *
          rneDiv (100 * rneDiv (N * 2 ^ (59 - binadeOf N)) 100) (2 ^ (59 - binadeOf N)) +
          2 ^ (59 - binadeOf N) := by ring
    have hz : 2 ^ (59 - binadeOf N) * N = N * 2 ^ (59 - binadeOf N) := by ring
    have hup : 2 ^ (59 - binadeOf N) *
        rneDiv (100 * rneDiv (N * 2 ^ (59 - binadeOf N)) 100) (2 ^ (59 - binadeOf N)) <
        2 ^ (59 - binadeOf N) * (N + 1) := by omega
    have hdn : 2 ^ (59 - binadeOf N) * N < 2 ^ (59 - binadeOf N) *
        (rneDiv (100 * rneDiv (N * 2 ^ (59 - binadeOf N)) 100) (2 ^ (59 - binadeOf N)) + 1) := by
      omega
    have hc1 := Nat.lt_of_mul_lt_mul_left hup
    have hc2 := Nat.lt_of_mul_lt_mul_left hdn
    congr 1
    omega

/-- Claim C8 (counterexample): the rendered output is not always the exact
decimal of n / 100 — at the total 9007199254740993 the program prints the
rounded double's cents "90071992547409.94", while the exact two-decimal
rendering of that total over 100 ends in "93". -/
theorem format_exact_rendering_fails :
    format2f 9007199254740993 = .ok "90071992547409.94" ∧
    toString ((9007199254740993 : Nat) / 100) ++ "." ++
      twoFrac ((9007199254740993 : Nat) % 100) = "90071992547409.93" ∧
    "90071992547409.94" ≠ "90071992547409.93" :=
  ⟨rfl, rfl, by decide⟩

/-- Claim C8 (amended): within double precision (any total n with
|n| ≤ 2 ^ 52) the output string is the exact decimal of n / 100 with
exactly two fractional digits, trailing zeros included — 100 renders as
"1.00" and 0 as "0.00" — while beyond it the output follows the correctly
rounded double (9007199254740993 renders as "90071992547409.94"). -/
theorem format_follows_double_within_precision :
    (∀ n : Int, n.natAbs ≤ 2 ^ 52 → ∃ q r : Nat, n.natAbs = 100 * q + r ∧ r < 100 ∧
      format2f n = .ok ((if n < 0 then "-" else "") ++ toString q ++ "." ++ twoFrac r) ∧
      (twoFrac r).length = 2) ∧
    format2f 100 = .ok "1.00" ∧ format2f 0 = .ok "0.00" ∧
    format2f 9007199254740993 = .ok "90071992547409.94" := by
  refine ⟨?_, rfl, rfl, rfl⟩
  intro n hn
  refine ⟨n.natAbs / 100, n.natAbs % 100, (Nat.div_add_mod _ _).symm,
    Nat.mod_lt _ (by norm_num), ?_, rfl⟩
  show (div100f n.natAbs >>= fun c =>
    Except.ok ((if n < 0 then "-" else "") ++ toString (c / 100) ++ "." ++ twoFrac (c % 100))) = _
  rw [div100f_exact n.natAbs hn, bind_ok]

/-- Witness for `format_follows_double_within_precision` at the total 100,
which is within the precision bound and renders as "1.00". -/
theorem format_follows_double_within_precision_witness :
    (100 : Int).natAbs ≤ 2 ^ 52 ∧
    (∃ q r : Nat, (100 : Int).natAbs = 100 * q + r ∧ r < 100 ∧
      format2f 100 = .ok ((if (100 : Int) < 0 then "-" else "") ++ toString q ++ "." ++ twoFrac r) ∧
      (twoFrac r).length = 2) :=
  ⟨by decide, format_follows_double_within_precision.1 100 (by decide)⟩

/-- Claim C9 (counterexample): `load_players_csv` is unguarded — a row with
a None UID cell raises AttributeError and a row missing the UID column
raises KeyError, aborting the load instead of skipping. -/
theorem players_loader_raises_on_malformed_row :
    load_players_csv [[("Player", some "A"), ("UID", none)]] = .error .attributeError ∧
    load_players_csv [[("Player", some "A")]] = .error .keyError :=
  ⟨rfl, rfl⟩

/-- Claim C9 (amended): malformed unit-catalog rows are silently skipped
and unit loading continues, while a malformed player-registry row raises
and aborts player loading whatever rows follow. -/
theorem units_loader_skips_players_loader_aborts :
    (∀ (row : CsvRow) (rest : List CsvRow) (m : List (Int × String)),
      unitRowParse row = none → loadUnitsAux m (row :: rest) = loadUnitsAux m rest) ∧
    (∀ rest : List CsvRow,
      load_players_csv ([("Player", some "A"), ("UID", none)] :: rest) =
        .error .attributeError) := by
  constructor
  · intro row rest m h
    simp [loadUnitsAux, h]
  · intro rest
    rfl

/-- Witness for `units_loader_skips_players_loader_aborts`: a unit row with
an unparsable code is skipped. -/
theorem units_loader_skips_players_loader_aborts_witness :
    unitRowParse [("units/Name code", some "x")] = none ∧
    loadUnitsAux [] [[("units/Name code", some "x")]] = loadUnitsAux [] [] ∧
    load_players_csv [[("Player", some "A"), ("UID", none)]] = .error .attributeError :=
  ⟨rfl,
   units_loader_skips_players_loader_aborts.1 [("units/Name code", some "x")] [] [] rfl,
   units_loader_skips_players_loader_aborts.2 []⟩

/-- Claim C10: a successfully parsed dict response whose top-level code
field is absent or non-zero yields the all-None row and never invokes the
extractor (the second component of `mainStep` records invocation). -/
theorem nonzero_code_null_row_no_extractor :
    ∀ (kvs : List (String × JVal)) (p u : String),
      (objGet kvs "code" = none ∨
        ∃ c, objGet kvs "code" = some c ∧ pyEq c (.int 0) = false) →
      mainStep (some (.obj kvs)) p u = .ok (nullRow p u, false) := by
  intro kvs p u h
  have hb : shouldExtract (some (.obj kvs)) = .ok false := by
    show (if pyTruthy (.obj kvs) = true then
        Except.ok (pyEq ((objGet kvs "code").getD .null) (.int 0))
      else Except.ok false) = .ok false
    cases ht : pyTruthy (.obj kvs) with
    | false => simp [ht]
    | true =>
      rw [if_pos rfl]
      rcases h with h | ⟨c, hc, hne⟩
      · rw [h]
        rfl
      · rw [hc]
        show Except.ok (pyEq c (.int 0)) = .ok false
        rw [hne]
  show shouldExtract (some (.obj kvs)) >>= (fun b =>
    if b then do
      let stats ← extract_stats_per_gear ((some (JVal.obj kvs)).getD .null)
      let a ← objSubscript stats "Attack"
      let e ← objSubscript stats "ElementalDamage"
      let mm ← objSubscript stats "MaxAmmo"
      Except.ok ((⟨p, u, some a, some e, some mm⟩ : Row), true)
    else Except.ok (nullRow p u, false)) = .ok (nullRow p u, false)
  rw [hb, bind_ok]
  rfl

/-- Witness for `nonzero_code_null_row_no_extractor` at code 5. -/
theorem nonzero_code_null_row_no_extractor_witness :
    mainStep (some (.obj [("code", .int 5)])) "P" "U" = .ok (nullRow "P" "U", false) :=
  nonzero_code_null_row_no_extractor [("code", .int 5)] "P" "U"
    (Or.inr ⟨.int 5, rfl, rfl⟩)

end OLScraper
